import Mathlib

/-!
Shallow embedding of the H3 directed-edge (unidirectional edge) subsystem.

An `H3Index` is modelled as a `Nat` holding a 64-bit word.  The bit layout
(specification §6, MSB to LSB) is:

  bit 63        : reserved high bit, must be 0
  bits 62..59   : mode (CELL = 1, DIRECTED_EDGE = 2)
  bits 58..56   : reserved / edge direction
  bits 55..52   : resolution (0..15)
  bits 51..45   : base cell (0..121)
  bits 44..0    : 15 digits of 3 bits each, digit 1 highest; value 7 = unused

Field extraction and update are expressed with division and remainder by
powers of two, which is equivalent to the mask-and-shift description of the
layout.  The implementation files of the edge subsystem (the bodies of
`h3IndexesAreNeighbors`, `getH3UnidirectionalEdge`, the edge accessors and
`h3UnidirectionalEdgeIsValid`) are not part of the published sources, only
their declarations in `h3api.h` and their tests; their behaviour is modelled
here from the specification text, as noted on each definition.

The grid neighbor-step function itself (FaceIJK decoding, unit step, face
crossing via the base-cell tables of §4.5-§4.7) depends on constant tables
that the specification does not reproduce; it is therefore taken as an
explicit parameter `nbr : Nat → Nat → Nat`, where `nbr h d` is the neighbor
of cell `h` in direction `d ∈ 1..6` (with 0 meaning "no neighbor", e.g. the
deleted K direction of a pentagon).  Every theorem about a function that
consumes the neighbor step quantifies over this parameter, adding only the
lattice facts the specification states (e.g. a unit step never returns its
argument).
-/

/-- Mode field: bits 62..59. -/
def h3GetMode (h : Nat) : Nat := h / 2 ^ 59 % 16

/-- Replace the mode field, keeping every other bit. -/
def h3SetMode (h m : Nat) : Nat :=
  h / 2 ^ 63 * 2 ^ 63 + m % 16 * 2 ^ 59 + h % 2 ^ 59

/-- Reserved field (edge direction for DIRECTED_EDGE mode): bits 58..56. -/
def h3GetReservedBits (h : Nat) : Nat := h / 2 ^ 56 % 8

/-- Replace the reserved field, keeping every other bit. -/
def h3SetReservedBits (h v : Nat) : Nat :=
  h / 2 ^ 59 * 2 ^ 59 + v % 8 * 2 ^ 56 + h % 2 ^ 56

/-- Resolution field: bits 55..52. -/
def h3GetResolution (h : Nat) : Nat := h / 2 ^ 52 % 16

/-- Base cell field: bits 51..45. -/
def h3GetBaseCell (h : Nat) : Nat := h / 2 ^ 45 % 128

/-- Digit `i` (for `i ∈ 1..15`): 3 bits at offset `3 * (15 - i)`. -/
def h3GetIndexDigit (h i : Nat) : Nat := h / 2 ^ (3 * (15 - i)) % 8

/-- High reserved bit 63. -/
def h3GetHighBit (h : Nat) : Nat := h / 2 ^ 63 % 2

/-- Modelled from the spec: the 12 pentagon base cells.  §3 fixes that
exactly 12 of the 122 base cells are pentagons; the specific numbers are
table data (`baseCellData`, §4.5, "reproduce bit-identically") whose table
is not reproduced in the published sources.  The standard H3 pentagon base
cells are used; they agree with every concrete pentagon the specification
names (base cell 4, and base cell 14 of `0x821c07fffffffff` and
`0x811c0ffffffffff`). -/
def isPentagonBaseCell (bc : Nat) : Bool :=
  bc == 4 || bc == 14 || bc == 24 || bc == 38 || bc == 49 || bc == 58 ||
  bc == 63 || bc == 72 || bc == 83 || bc == 97 || bc == 107 || bc == 117

/-- First non-zero digit among digits `1..res`, or 0 when all are zero. -/
def h3LeadingNonZeroDigit (h : Nat) : Nat :=
  ((((List.range (h3GetResolution h)).map
      (fun i => h3GetIndexDigit h (i + 1))).find? (fun d => d != 0))).getD 0

/-- Modelled from the spec (§4.1, the body of `h3IsValid` is not in the
published sources): high bit 0, mode CELL, reserved 0, base cell 0..121,
digits `1..res` in 0..6 and digits `res+1..15` equal to 7, and for a
pentagon base cell the leading non-zero digit is not 1.  The word itself
must fit in 64 bits. -/
def h3IsValid (h : Nat) : Bool :=
  decide (h < 2 ^ 64) &&
  (h3GetHighBit h == 0) &&
  (h3GetMode h == 1) &&
  (h3GetReservedBits h == 0) &&
  decide (h3GetBaseCell h ≤ 121) &&
  ((List.range 15).all (fun i =>
    if i < h3GetResolution h then h3GetIndexDigit h (i + 1) != 7
    else h3GetIndexDigit h (i + 1) == 7)) &&
  (!(isPentagonBaseCell (h3GetBaseCell h)) || (h3LeadingNonZeroDigit h != 1))

/-- Modelled from the spec: a cell is a pentagon when its base cell is one
of the 12 pentagon base cells and every digit is 0 (the centered
descendant), matching the 12-pentagons-per-resolution count and the
concrete pentagons named by the specification. -/
def h3IsPentagon (h : Nat) : Bool :=
  isPentagonBaseCell (h3GetBaseCell h) && (h3LeadingNonZeroDigit h == 0)

/-- Class III test: odd resolutions are Class III (glossary). -/
def h3IsResClassIII (h : Nat) : Bool := h3GetResolution h % 2 == 1

/-- The six neighbor directions 1..6 (direction 0 is "center"). -/
def candidateDirs : List Nat := [1, 2, 3, 4, 5, 6]

/-- Whether `b` appears in the 6-neighbor set of `a` under neighbor step
`nbr`. -/
def neighborIn (nbr : Nat → Nat → Nat) (a b : Nat) : Bool :=
  candidateDirs.any (fun d => nbr a d == b)

/-- Modelled from the spec (§4.7, body not in the published sources):
`h3IndexesAreNeighbors(a, b)` is true iff both are valid cells of the same
resolution and one appears in the other's 6-neighbor set. -/
def h3IndexesAreNeighbors (nbr : Nat → Nat → Nat) (a b : Nat) : Bool :=
  h3IsValid a && h3IsValid b &&
  (h3GetResolution a == h3GetResolution b) &&
  (neighborIn nbr a b || neighborIn nbr b a)

/-- Copy of a cell with mode DIRECTED_EDGE and the given direction in the
reserved field: the edge word built by the edge constructors. -/
def mkUniEdge (h d : Nat) : Nat := h3SetReservedBits (h3SetMode h 2) d

/-- First direction `d ∈ 1..6` with `nbr a d = b`, or 0 when none. -/
def directionBetween (nbr : Nat → Nat → Nat) (a b : Nat) : Nat :=
  ((candidateDirs.find? (fun d => nbr a d == b))).getD 0

/-- Modelled from the spec (§4.8, body not in the published sources):
check neighbor adjacency, returning the sentinel 0 for non-neighbors;
otherwise copy the origin, set mode DIRECTED_EDGE, and write the direction
from origin to destination into the reserved field. -/
def getH3UnidirectionalEdge (nbr : Nat → Nat → Nat)
    (origin destination : Nat) : Nat :=
  if h3IndexesAreNeighbors nbr origin destination then
    mkUniEdge origin (directionBetween nbr origin destination)
  else 0

/-- Modelled from the spec (§4.8): the origin of an edge is the edge word
with the reserved field cleared and mode set back to CELL. -/
def getOriginH3IndexFromUnidirectionalEdge (e : Nat) : Nat :=
  h3SetMode (h3SetReservedBits e 0) 1

/-- Modelled from the spec (§4.8): the destination is the origin's neighbor
in the encoded direction. -/
def getDestinationH3IndexFromUnidirectionalEdge
    (nbr : Nat → Nat → Nat) (e : Nat) : Nat :=
  nbr (getOriginH3IndexFromUnidirectionalEdge e) (h3GetReservedBits e)

/-- Modelled from the spec (§4.8 and the `h3api.h` declaration): the
two-slot output holding origin then destination. -/
def getH3IndexesFromUnidirectionalEdge
    (nbr : Nat → Nat → Nat) (e : Nat) : List Nat :=
  [getOriginH3IndexFromUnidirectionalEdge e,
   getDestinationH3IndexFromUnidirectionalEdge nbr e]

/-- Modelled from the spec (§4.8, body not in the published sources):
mode DIRECTED_EDGE, direction in 1..6, direction not 1 when the origin
base cell is a pentagon, and the implied origin a valid cell. -/
def h3UnidirectionalEdgeIsValid (e : Nat) : Bool :=
  (h3GetMode e == 2) &&
  decide (1 ≤ h3GetReservedBits e) &&
  decide (h3GetReservedBits e ≤ 6) &&
  (!(isPentagonBaseCell
      (h3GetBaseCell (getOriginH3IndexFromUnidirectionalEdge e))) ||
    (h3GetReservedBits e != 1)) &&
  h3IsValid (getOriginH3IndexFromUnidirectionalEdge e)

/-- Modelled from the spec (§4.8): one edge per direction 1..6; for a
pentagon the K-direction (direction 1) slot is left as 0. -/
def getH3UnidirectionalEdgesFromHexagon (h : Nat) : List Nat :=
  candidateDirs.map (fun d =>
    if h3IsPentagon h && d == 1 then 0 else mkUniEdge h d)

/-- Modelled from the spec (§4.8): the edge boundary has two vertices,
or three for a Class III pentagon origin.  Only the vertex count of the
`GeoBoundary` output is modelled; the vertex coordinates go through the
projection machinery, which is out of the edge subsystem. -/
def getH3UnidirectionalEdgeBoundaryNumVerts (e : Nat) : Nat :=
  if h3IsPentagon (getOriginH3IndexFromUnidirectionalEdge e) &&
     h3IsResClassIII (getOriginH3IndexFromUnidirectionalEdge e) then 3
  else 2

/-- ASCII code of the hexadecimal digit `n < 16`, lowercase. -/
def hexDigitCode (n : Nat) : Nat := if n < 10 then 48 + n else 87 + n

/-- Hexadecimal digit codes of `n` (most significant first), empty for 0;
`fuel` bounds the recursion depth. -/
def toHexCodesAux : Nat → Nat → List Nat
  | 0, _ => []
  | fuel + 1, n =>
    if n == 0 then [] else toHexCodesAux fuel (n / 16) ++ [hexDigitCode (n % 16)]

/-- Modelled from the spec (§4.1, §6; body not in the published sources):
`h3ToString` prints the index as lowercase hexadecimal with no leading
zeros.  Strings are modelled as lists of ASCII codes. -/
def h3ToString (h : Nat) : List Nat :=
  if h == 0 then [48] else toHexCodesAux 64 h

/-- Value of one hexadecimal digit code, accepting both cases. -/
def hexCodeVal (c : Nat) : Option Nat :=
  if 48 ≤ c ∧ c ≤ 57 then some (c - 48)
  else if 97 ≤ c ∧ c ≤ 102 then some (c - 87)
  else if 65 ≤ c ∧ c ≤ 70 then some (c - 55)
  else none

/-- One parsing step: accumulate a hexadecimal digit, `none` on a bad
character. -/
def parseHexStep (acc : Option Nat) (c : Nat) : Option Nat :=
  match acc, hexCodeVal c with
  | some a, some v => some (16 * a + v)
  | _, _ => none

/-- Modelled from the spec (§4.1, §6; body not in the published sources):
`stringToH3` parses hexadecimal case-insensitively, returning the sentinel
0 when the string is empty or holds a non-hexadecimal character. -/
def stringToH3 (s : List Nat) : Nat :=
  if s.isEmpty then 0 else (s.foldl parseHexStep (some 0)).getD 0

/-- Uppercase a hexadecimal digit code (identity on other codes). -/
def upperHexCode (c : Nat) : Nat :=
  if 97 ≤ c ∧ c ≤ 102 then c - 32 else c

/-- Resolution-0 cell on base cell 0 (all digits unused). -/
def cellA : Nat := 0x8001fffffffffff

/-- Resolution-0 cell on base cell 1 (all digits unused). -/
def cellB : Nat := 0x8003fffffffffff

/-- The resolution-2 pentagon (base cell 14) named by the specification. -/
def pentagon2 : Nat := 0x821c07fffffffff

/-- The Class III resolution-1 pentagon (base cell 14) named by the
specification. -/
def pentagon1 : Nat := 0x811c0ffffffffff

/-- Hexagon cell on pentagon base cell 4: resolution 1, digit 1 equal
to 2. -/
def hexOnPentBase : Nat := 0x8108bffffffffff

/-- Neighbor-step parameter used for concrete instantiations: `cellA` and
`cellB` are mutual neighbors (directions 3 and 6), nothing else steps
anywhere. -/
def nbrAB : Nat → Nat → Nat := fun x d =>
  if x == cellA && d == 3 then cellB
  else if x == cellB && d == 6 then cellA
  else 0

/-- Degenerate neighbor-step parameter: no cell has any neighbor. -/
def nbrNone : Nat → Nat → Nat := fun _ _ => 0

example : h3IsValid cellA = true := by decide
example : h3IsValid cellB = true := by decide
example : h3IsValid pentagon2 = true := by decide
example : h3IsValid pentagon1 = false := by decide
example : h3IsValid hexOnPentBase = true := by decide
example : h3IsPentagon pentagon2 = true := by decide
example : h3IsPentagon pentagon1 = true := by decide
example : h3IsPentagon hexOnPentBase = false := by decide
example : h3GetBaseCell hexOnPentBase = 4 := by decide
example : h3GetResolution pentagon1 = 1 := by decide
example : h3IndexesAreNeighbors nbrAB cellA cellB = true := by decide

/-! ### Bit-level helper lemmas -/

lemma h3IsValid_facts (a : Nat) (hv : h3IsValid a = true) :
    a < 2 ^ 64 ∧ h3GetHighBit a = 0 ∧ h3GetMode a = 1 ∧
      h3GetReservedBits a = 0 := by
  simp only [h3IsValid, Bool.and_eq_true, decide_eq_true_eq, beq_iff_eq] at hv
  exact ⟨hv.1.1.1.1.1.1, hv.1.1.1.1.1.2, hv.1.1.1.1.2, hv.1.1.1.2⟩

lemma h3IsValid_decomp (a : Nat) (hv : h3IsValid a = true) :
    a = 2 ^ 59 + a % 2 ^ 56 := by
  obtain ⟨h64, hhb, hm, hr⟩ := h3IsValid_facts a hv
  simp only [h3GetHighBit, h3GetMode, h3GetReservedBits] at hhb hm hr
  omega

lemma mkUniEdge_closed (r d : Nat) (hr : r < 2 ^ 56) (hd : d < 8) :
    mkUniEdge (2 ^ 59 + r) d = 2 ^ 60 + d * 2 ^ 56 + r := by
  simp only [mkUniEdge, h3SetMode, h3SetReservedBits]
  omega

lemma mkUniEdge_pos (h d : Nat) : 2 ^ 60 ≤ mkUniEdge h d := by
  simp only [mkUniEdge, h3SetMode, h3SetReservedBits]
  omega

lemma reserved_mkUniEdge (h d : Nat) :
    h3GetReservedBits (mkUniEdge h d) = d % 8 := by
  simp only [mkUniEdge, h3SetMode, h3SetReservedBits, h3GetReservedBits]
  omega

lemma mode_mkUniEdge (h d : Nat) : h3GetMode (mkUniEdge h d) = 2 := by
  simp only [mkUniEdge, h3SetMode, h3SetReservedBits, h3GetMode]
  omega

lemma origin_mkUniEdge (a d : Nat) (hv : h3IsValid a = true) :
    getOriginH3IndexFromUnidirectionalEdge (mkUniEdge a d) = a := by
  have hd : a = 2 ^ 59 + a % 2 ^ 56 := h3IsValid_decomp a hv
  rw [hd]
  simp only [getOriginH3IndexFromUnidirectionalEdge, mkUniEdge, h3SetMode,
    h3SetReservedBits]
  omega

lemma baseCell_origin (e : Nat) :
    h3GetBaseCell (getOriginH3IndexFromUnidirectionalEdge e) =
      h3GetBaseCell e := by
  simp only [getOriginH3IndexFromUnidirectionalEdge, h3SetMode,
    h3SetReservedBits, h3GetBaseCell]
  omega

lemma uniEdgeIsValid_mkUniEdge (a d : Nat) (hv : h3IsValid a = true)
    (hd1 : 1 ≤ d) (hd6 : d ≤ 6)
    (hp : isPentagonBaseCell (h3GetBaseCell a) = false ∨ d ≠ 1) :
    h3UnidirectionalEdgeIsValid (mkUniEdge a d) = true := by
  have horig := origin_mkUniEdge a d hv
  have hres := reserved_mkUniEdge a d
  have hmode := mode_mkUniEdge a d
  have hd8 : d % 8 = d := by omega
  simp only [h3UnidirectionalEdgeIsValid, horig, hres, hmode, hd8,
    Bool.and_eq_true, decide_eq_true_eq, beq_iff_eq, Bool.or_eq_true,
    Bool.not_eq_true', bne_iff_ne, ne_eq]
  exact ⟨⟨⟨⟨trivial, hd1⟩, hd6⟩, hp⟩, hv⟩

lemma uniEdgeIsValid_mkUniEdge_k (a : Nat)
    (hp : isPentagonBaseCell (h3GetBaseCell a) = true)
    (hv : h3IsValid a = true) :
    h3UnidirectionalEdgeIsValid (mkUniEdge a 1) = false := by
  have horig := origin_mkUniEdge a 1 hv
  have hres := reserved_mkUniEdge a 1
  simp [h3UnidirectionalEdgeIsValid, horig, hres, hp]

/-! ### Claim theorems -/

/-- C1: for valid cells `a` and `b` of the same resolution with `b` a
neighbor of `a` (a step from `a` in some direction `d ∈ 1..6` reaches
`b`), the directed edge `getH3UnidirectionalEdge a b` is nonzero, its
origin is `a`, and its destination is `b`. -/
theorem edge_of_neighbors_origin_dest (nbr : Nat → Nat → Nat) (a b : Nat)
    (ha : h3IsValid a = true) (hb : h3IsValid b = true)
    (hres : h3GetResolution a = h3GetResolution b)
    (d : Nat) (hd1 : 1 ≤ d) (hd6 : d ≤ 6) (hstep : nbr a d = b) :
    getH3UnidirectionalEdge nbr a b ≠ 0 ∧
    getOriginH3IndexFromUnidirectionalEdge
      (getH3UnidirectionalEdge nbr a b) = a ∧
    getDestinationH3IndexFromUnidirectionalEdge nbr
      (getH3UnidirectionalEdge nbr a b) = b := by
  have hcases : d = 1 ∨ d = 2 ∨ d = 3 ∨ d = 4 ∨ d = 5 ∨ d = 6 := by omega
  have hnbrIn : neighborIn nbr a b = true := by
    simp only [neighborIn, candidateDirs, List.any_cons, List.any_nil,
      Bool.or_eq_true, beq_iff_eq]
    rcases hcases with h | h | h | h | h | h <;> subst h <;> tauto
  have hnn : h3IndexesAreNeighbors nbr a b = true := by
    simp [h3IndexesAreNeighbors, ha, hb, hres, hnbrIn]
  rcases hf : candidateDirs.find? (fun x => nbr a x == b) with _ | d0
  · exfalso
    have hmem : d ∈ candidateDirs := by
      simp only [candidateDirs, List.mem_cons, List.not_mem_nil, or_false]
      omega
    have := List.find?_eq_none.mp hf d hmem
    simp [hstep] at this
  · have hpd0 : nbr a d0 = b := by
      have := List.find?_some hf
      simpa using this
    have hmem : d0 ∈ candidateDirs := List.mem_of_find?_eq_some hf
    have hb0 : 1 ≤ d0 ∧ d0 ≤ 6 := by
      simp only [candidateDirs, List.mem_cons, List.not_mem_nil, or_false]
        at hmem
      omega
    have hdb : directionBetween nbr a b = d0 := by
      simp [directionBetween, hf]
    have hedge : getH3UnidirectionalEdge nbr a b = mkUniEdge a d0 := by
      simp [getH3UnidirectionalEdge, hnn, hdb]
    rw [hedge]
    refine ⟨?_, origin_mkUniEdge a d0 ha, ?_⟩
    · have := mkUniEdge_pos a d0
      omega
    · rw [getDestinationH3IndexFromUnidirectionalEdge,
        origin_mkUniEdge a d0 ha, reserved_mkUniEdge]
      have : d0 % 8 = d0 := by omega
      rw [this, hpd0]

theorem edge_of_neighbors_origin_dest_witness :
    getH3UnidirectionalEdge nbrAB cellA cellB ≠ 0 ∧
    getOriginH3IndexFromUnidirectionalEdge
      (getH3UnidirectionalEdge nbrAB cellA cellB) = cellA ∧
    getDestinationH3IndexFromUnidirectionalEdge nbrAB
      (getH3UnidirectionalEdge nbrAB cellA cellB) = cellB :=
  edge_of_neighbors_origin_dest nbrAB cellA cellB (by decide) (by decide)
    (by decide) 3 (by decide) (by decide) (by decide)

/-- C2: when `a` and `b` are not neighbors, `getH3UnidirectionalEdge`
returns the sentinel index 0. -/
theorem edge_of_non_neighbors_is_zero (nbr : Nat → Nat → Nat) (a b : Nat)
    (h : h3IndexesAreNeighbors nbr a b = false) :
    getH3UnidirectionalEdge nbr a b = 0 := by
  simp [getH3UnidirectionalEdge, h]

theorem edge_of_non_neighbors_is_zero_witness :
    getH3UnidirectionalEdge nbrNone cellA pentagon2 = 0 :=
  edge_of_non_neighbors_is_zero nbrNone cellA pentagon2 (by decide)

/-- C3: `h3UnidirectionalEdgeIsValid e` holds iff the mode is
DIRECTED_EDGE, the direction in the reserved field is in 1..6, the
direction is not 1 when the base cell of the implied origin is a pentagon,
and the implied origin is a valid cell; moreover a valid cell never
validates as an edge, a DIRECTED_EDGE word with direction 0 never
validates, and for pentagon `0x821c07fffffffff` the direction-2 edge
validates while the direction-1 edge does not. -/
theorem uni_edge_validity_characterization :
    (∀ e, h3UnidirectionalEdgeIsValid e = true ↔
      (h3GetMode e = 2 ∧ 1 ≤ h3GetReservedBits e ∧ h3GetReservedBits e ≤ 6 ∧
       (isPentagonBaseCell
          (h3GetBaseCell (getOriginH3IndexFromUnidirectionalEdge e)) = true →
        h3GetReservedBits e ≠ 1) ∧
       h3IsValid (getOriginH3IndexFromUnidirectionalEdge e) = true)) ∧
    (∀ h, h3IsValid h = true → h3UnidirectionalEdgeIsValid h = false) ∧
    (∀ e, h3GetMode e = 2 → h3GetReservedBits e = 0 →
      h3UnidirectionalEdgeIsValid e = false) ∧
    h3UnidirectionalEdgeIsValid (mkUniEdge pentagon2 2) = true ∧
    h3UnidirectionalEdgeIsValid (mkUniEdge pentagon2 1) = false := by
  refine ⟨?_, ?_, ?_, by decide, by decide⟩
  · intro e
    simp only [h3UnidirectionalEdgeIsValid, Bool.and_eq_true,
      decide_eq_true_eq, beq_iff_eq, Bool.or_eq_true, Bool.not_eq_true',
      bne_iff_ne, ne_eq]
    constructor
    · rintro ⟨⟨⟨⟨hm, h1⟩, h6⟩, hpent⟩, hval⟩
      refine ⟨hm, h1, h6, ?_, hval⟩
      intro hp hd
      rcases hpent with hpent | hpent
      · simp [hp] at hpent
      · exact hpent hd
    · rintro ⟨hm, h1, h6, hpent, hval⟩
      refine ⟨⟨⟨⟨hm, h1⟩, h6⟩, ?_⟩, hval⟩
      cases hbp : isPentagonBaseCell
          (h3GetBaseCell (getOriginH3IndexFromUnidirectionalEdge e)) with
      | false => exact Or.inl rfl
      | true => exact Or.inr (hpent hbp)
  · intro h hv
    have hm := (h3IsValid_facts h hv).2.2.1
    simp [h3UnidirectionalEdgeIsValid, hm]
  · intro e hm hr
    simp [h3UnidirectionalEdgeIsValid, hr]

theorem uni_edge_validity_characterization_witness :
    h3UnidirectionalEdgeIsValid cellA = false :=
  uni_edge_validity_characterization.2.1 cellA (by decide)

/-- C4 counterexample: `hexOnPentBase` (base cell 4, resolution 1, digit 2)
is a valid cell and not a pentagon, yet only 5 of its 6 edge slots hold
validating edges: the direction-1 edge is rejected because the origin base
cell is a pentagon, contradicting "exactly 6 valid edges when `h` is a
hexagon". -/
theorem edges_from_hexagon_counterexample :
    h3IsValid hexOnPentBase = true ∧
    h3IsPentagon hexOnPentBase = false ∧
    ((getH3UnidirectionalEdgesFromHexagon hexOnPentBase).filter
      (fun e => h3UnidirectionalEdgeIsValid e)).length = 5 := by decide

/-- C4 (amended): for a valid cell `h`, the 6-slot output has: all slots
nonzero with origin `h` when `h` is a hexagon, all of them validating when
the base cell of `h` is not a pentagon and exactly 5 of them validating
when it is (the direction-1 edge fails the pentagon base cell check); and
when `h` is a pentagon, exactly one slot equal to 0 (the K direction) and
every other slot a validating edge with origin `h`. -/
theorem edges_from_hexagon_slots (h : Nat) (hv : h3IsValid h = true) :
    (getH3UnidirectionalEdgesFromHexagon h).length = 6 ∧
    (h3IsPentagon h = false →
      (∀ e ∈ getH3UnidirectionalEdgesFromHexagon h, e ≠ 0 ∧
        getOriginH3IndexFromUnidirectionalEdge e = h) ∧
      (isPentagonBaseCell (h3GetBaseCell h) = false →
        ∀ e ∈ getH3UnidirectionalEdgesFromHexagon h,
          h3UnidirectionalEdgeIsValid e = true) ∧
      (isPentagonBaseCell (h3GetBaseCell h) = true →
        ((getH3UnidirectionalEdgesFromHexagon h).filter
          (fun e => h3UnidirectionalEdgeIsValid e)).length = 5)) ∧
    (h3IsPentagon h = true →
      (getH3UnidirectionalEdgesFromHexagon h).count 0 = 1 ∧
      ∀ e ∈ getH3UnidirectionalEdgesFromHexagon h, e ≠ 0 →
        h3UnidirectionalEdgeIsValid e = true ∧
        getOriginH3IndexFromUnidirectionalEdge e = h) := by
  have h26 : ∀ d, 2 ≤ d → d ≤ 6 →
      h3UnidirectionalEdgeIsValid (mkUniEdge h d) = true := fun d hd2 hd6 =>
    uniEdgeIsValid_mkUniEdge h d hv (by omega) hd6 (Or.inr (by omega))
  have hne : ∀ d, mkUniEdge h d ≠ 0 := fun d => by
    have := mkUniEdge_pos h d
    omega
  have horig : ∀ d,
      getOriginH3IndexFromUnidirectionalEdge (mkUniEdge h d) = h :=
    fun d => origin_mkUniEdge h d hv
  have hlist : getH3UnidirectionalEdgesFromHexagon h =
      [(if h3IsPentagon h then 0 else mkUniEdge h 1), mkUniEdge h 2,
       mkUniEdge h 3, mkUniEdge h 4, mkUniEdge h 5, mkUniEdge h 6] := by
    simp [getH3UnidirectionalEdgesFromHexagon, candidateDirs]
  refine ⟨by rw [hlist]; rfl, ?_, ?_⟩
  · intro hp
    have hlist' : getH3UnidirectionalEdgesFromHexagon h =
        [mkUniEdge h 1, mkUniEdge h 2, mkUniEdge h 3, mkUniEdge h 4,
         mkUniEdge h 5, mkUniEdge h 6] := by rw [hlist]; simp [hp]
    refine ⟨?_, ?_, ?_⟩
    · intro e he
      rw [hlist'] at he
      simp only [List.mem_cons, List.not_mem_nil, or_false] at he
      rcases he with rfl | rfl | rfl | rfl | rfl | rfl <;>
        exact ⟨hne _, horig _⟩
    · intro hbc e he
      rw [hlist'] at he
      simp only [List.mem_cons, List.not_mem_nil, or_false] at he
      have h1v : h3UnidirectionalEdgeIsValid (mkUniEdge h 1) = true :=
        uniEdgeIsValid_mkUniEdge h 1 hv (by omega) (by omega) (Or.inl hbc)
      rcases he with rfl | rfl | rfl | rfl | rfl | rfl
      · exact h1v
      all_goals exact h26 _ (by omega) (by omega)
    · intro hbc
      have h1v : h3UnidirectionalEdgeIsValid (mkUniEdge h 1) = false :=
        uniEdgeIsValid_mkUniEdge_k h hbc hv
      rw [hlist']
      simp [List.filter_cons, h1v, h26 2 (by omega) (by omega),
        h26 3 (by omega) (by omega), h26 4 (by omega) (by omega),
        h26 5 (by omega) (by omega), h26 6 (by omega) (by omega)]
  · intro hp
    have hlist' : getH3UnidirectionalEdgesFromHexagon h =
        [0, mkUniEdge h 2, mkUniEdge h 3, mkUniEdge h 4,
         mkUniEdge h 5, mkUniEdge h 6] := by rw [hlist]; simp [hp]
    constructor
    · rw [hlist']
      simp [List.count_cons, hne 2, hne 3, hne 4, hne 5, hne 6]
    · intro e he hene
      rw [hlist'] at he
      simp only [List.mem_cons, List.not_mem_nil, or_false] at he
      rcases he with rfl | rfl | rfl | rfl | rfl | rfl
      · exact absurd rfl hene
      all_goals exact ⟨h26 _ (by omega) (by omega), horig _⟩

theorem edges_from_hexagon_slots_witness :
    (getH3UnidirectionalEdgesFromHexagon pentagon2).count 0 = 1 :=
  ((edges_from_hexagon_slots pentagon2 (by decide)).2.2 (by decide)).1

/-- C5: the edge boundary vertex count is 2 when the origin cell is a
hexagon and 3 for a Class III pentagon origin; in particular every
non-absent edge of Class III pentagon `0x811c0ffffffffff` has a 3-vertex
boundary, and exactly one of its 6 edge slots is 0. -/
theorem edge_boundary_vertex_counts :
    (∀ e, h3UnidirectionalEdgeIsValid e = true →
      h3IsPentagon (getOriginH3IndexFromUnidirectionalEdge e) = false →
      getH3UnidirectionalEdgeBoundaryNumVerts e = 2) ∧
    (∀ e, h3IsPentagon (getOriginH3IndexFromUnidirectionalEdge e) = true →
      h3IsResClassIII (getOriginH3IndexFromUnidirectionalEdge e) = true →
      getH3UnidirectionalEdgeBoundaryNumVerts e = 3) ∧
    (∀ e ∈ getH3UnidirectionalEdgesFromHexagon pentagon1, e ≠ 0 →
      getH3UnidirectionalEdgeBoundaryNumVerts e = 3) ∧
    (getH3UnidirectionalEdgesFromHexagon pentagon1).count 0 = 1 := by
  refine ⟨?_, ?_, by decide, by decide⟩
  · intro e _ hp
    simp [getH3UnidirectionalEdgeBoundaryNumVerts, hp]
  · intro e hp hc
    simp [getH3UnidirectionalEdgeBoundaryNumVerts, hp, hc]

theorem edge_boundary_vertex_counts_witness :
    getH3UnidirectionalEdgeBoundaryNumVerts (mkUniEdge cellA 2) = 2 :=
  edge_boundary_vertex_counts.1 (mkUniEdge cellA 2) (by decide) (by decide)

/-- C6: `h3IndexesAreNeighbors a b` holds iff both are valid cells of the
same resolution and one appears in the other's 6-neighbor set; it is false
whenever either word's mode is not CELL, and false for two valid cells of
different resolutions. -/
theorem are_neighbors_characterization :
    (∀ (nbr : Nat → Nat → Nat) (a b : Nat),
      h3IndexesAreNeighbors nbr a b = true ↔
        (h3IsValid a = true ∧ h3IsValid b = true ∧
         h3GetResolution a = h3GetResolution b ∧
         ∃ d, 1 ≤ d ∧ d ≤ 6 ∧ (nbr a d = b ∨ nbr b d = a))) ∧
    (∀ (nbr : Nat → Nat → Nat) (a b : Nat),
      h3GetMode a ≠ 1 ∨ h3GetMode b ≠ 1 →
      h3IndexesAreNeighbors nbr a b = false) ∧
    (∀ (nbr : Nat → Nat → Nat) (a b : Nat), h3IsValid a = true →
      h3IsValid b = true → h3GetResolution a ≠ h3GetResolution b →
      h3IndexesAreNeighbors nbr a b = false) := by
  refine ⟨?_, ?_, ?_⟩
  · intro nbr a b
    simp only [h3IndexesAreNeighbors, neighborIn, candidateDirs,
      List.any_cons, List.any_nil, Bool.and_eq_true, Bool.or_eq_true,
      beq_iff_eq, Bool.or_false]
    constructor
    · rintro ⟨⟨⟨hva, hvb⟩, hres⟩, hdisj⟩
      refine ⟨hva, hvb, hres, ?_⟩
      rcases hdisj with (h1 | h1 | h1 | h1 | h1 | h1) |
          (h1 | h1 | h1 | h1 | h1 | h1)
      · exact ⟨1, by omega, by omega, Or.inl h1⟩
      · exact ⟨2, by omega, by omega, Or.inl h1⟩
      · exact ⟨3, by omega, by omega, Or.inl h1⟩
      · exact ⟨4, by omega, by omega, Or.inl h1⟩
      · exact ⟨5, by omega, by omega, Or.inl h1⟩
      · exact ⟨6, by omega, by omega, Or.inl h1⟩
      · exact ⟨1, by omega, by omega, Or.inr h1⟩
      · exact ⟨2, by omega, by omega, Or.inr h1⟩
      · exact ⟨3, by omega, by omega, Or.inr h1⟩
      · exact ⟨4, by omega, by omega, Or.inr h1⟩
      · exact ⟨5, by omega, by omega, Or.inr h1⟩
      · exact ⟨6, by omega, by omega, Or.inr h1⟩
    · rintro ⟨hva, hvb, hres, d, hd1, hd6, hor⟩
      refine ⟨⟨⟨hva, hvb⟩, hres⟩, ?_⟩
      have hd : d = 1 ∨ d = 2 ∨ d = 3 ∨ d = 4 ∨ d = 5 ∨ d = 6 := by omega
      rcases hd with rfl | rfl | rfl | rfl | rfl | rfl <;> tauto
  · intro nbr a b hm
    rcases hm with hm | hm
    · have hva : h3IsValid a = false := by
        cases hva : h3IsValid a with
        | false => rfl
        | true => exact absurd (h3IsValid_facts a hva).2.2.1 hm
      simp [h3IndexesAreNeighbors, hva]
    · have hvb : h3IsValid b = false := by
        cases hvb : h3IsValid b with
        | false => rfl
        | true => exact absurd (h3IsValid_facts b hvb).2.2.1 hm
      simp [h3IndexesAreNeighbors, hvb]
  · intro nbr a b _ _ hne
    have hres : (h3GetResolution a == h3GetResolution b) = false := by
      simp [hne]
    simp [h3IndexesAreNeighbors, hres]

theorem are_neighbors_characterization_witness :
    h3IndexesAreNeighbors nbrNone (mkUniEdge cellA 2) cellA = false :=
  are_neighbors_characterization.2.1 nbrNone (mkUniEdge cellA 2) cellA
    (Or.inl (by decide))

/-- C7: a valid cell is never a neighbor of itself, given that a neighbor
step (a unit step in the lattice, §4.7) never returns its argument. -/
theorem no_self_neighbor (nbr : Nat → Nat → Nat) (h : Nat)
    (hv : h3IsValid h = true)
    (hirr : ∀ d, 1 ≤ d → d ≤ 6 → nbr h d ≠ h) :
    h3IndexesAreNeighbors nbr h h = false := by
  cases hn : h3IndexesAreNeighbors nbr h h with
  | false => rfl
  | true =>
    exfalso
    simp only [h3IndexesAreNeighbors, neighborIn, candidateDirs,
      List.any_cons, List.any_nil, Bool.and_eq_true, Bool.or_eq_true,
      beq_iff_eq, Bool.or_false] at hn
    rcases hn.2 with hor | hor <;>
      rcases hor with h1 | h1 | h1 | h1 | h1 | h1 <;>
      first
      | exact hirr 1 (by omega) (by omega) h1
      | exact hirr 2 (by omega) (by omega) h1
      | exact hirr 3 (by omega) (by omega) h1
      | exact hirr 4 (by omega) (by omega) h1
      | exact hirr 5 (by omega) (by omega) h1
      | exact hirr 6 (by omega) (by omega) h1

theorem no_self_neighbor_witness :
    h3IndexesAreNeighbors nbrNone cellA cellA = false :=
  no_self_neighbor nbrNone cellA (by decide)
    (fun d _ _ => by simp [nbrNone, cellA])

/-! ### String conversion lemmas -/

lemma hexCodeVal_hexDigitCode (n : Nat) (hn : n < 16) :
    hexCodeVal (hexDigitCode n) = some n := by
  rcases Nat.lt_or_ge n 10 with h10 | h10
  · rw [hexDigitCode, if_pos h10, hexCodeVal, if_pos (by omega)]
    congr 1
    omega
  · rw [hexDigitCode, if_neg (by omega), hexCodeVal, if_neg (by omega),
      if_pos (by omega)]
    congr 1
    omega

lemma hexCodeVal_upper_hexDigitCode (n : Nat) (hn : n < 16) :
    hexCodeVal (upperHexCode (hexDigitCode n)) = some n := by
  rcases Nat.lt_or_ge n 10 with h10 | h10
  · rw [hexDigitCode, if_pos h10, upperHexCode, if_neg (by omega),
      hexCodeVal, if_pos (by omega)]
    congr 1
    omega
  · rw [hexDigitCode, if_neg (by omega), upperHexCode, if_pos (by omega),
      hexCodeVal, if_neg (by omega), if_neg (by omega), if_pos (by omega)]
    congr 1
    omega

lemma foldl_parse_toHex (fuel : Nat) : ∀ n a, n < 16 ^ fuel →
    List.foldl parseHexStep (some a) (toHexCodesAux fuel n) =
      some (a * 16 ^ (toHexCodesAux fuel n).length + n) := by
  induction fuel with
  | zero =>
    intro n a hn
    have hn0 : n = 0 := by simpa using hn
    subst hn0
    simp [toHexCodesAux]
  | succ fuel ih =>
    intro n a hn
    by_cases h0 : n = 0
    · subst h0
      simp [toHexCodesAux]
    · have hlt : n / 16 < 16 ^ fuel := by
        have hpow : (16:Nat) ^ (fuel + 1) = 16 ^ fuel * 16 := by ring
        rw [hpow] at hn
        omega
      have hstep : toHexCodesAux (fuel + 1) n =
          toHexCodesAux fuel (n / 16) ++ [hexDigitCode (n % 16)] := by
        simp [toHexCodesAux, h0]
      rw [hstep, List.foldl_append, ih (n / 16) a hlt]
      simp only [List.foldl_cons, List.foldl_nil, parseHexStep,
        hexCodeVal_hexDigitCode (n % 16) (by omega), List.length_append,
        List.length_cons, List.length_nil, Nat.zero_add]
      congr 1
      rw [pow_succ, ← mul_assoc]
      generalize a * 16 ^ (toHexCodesAux fuel (n / 16)).length = X
      omega

lemma foldl_parse_toHex_upper (fuel : Nat) : ∀ n a, n < 16 ^ fuel →
    List.foldl parseHexStep (some a)
        ((toHexCodesAux fuel n).map upperHexCode) =
      some (a * 16 ^ (toHexCodesAux fuel n).length + n) := by
  induction fuel with
  | zero =>
    intro n a hn
    have hn0 : n = 0 := by simpa using hn
    subst hn0
    simp [toHexCodesAux]
  | succ fuel ih =>
    intro n a hn
    by_cases h0 : n = 0
    · subst h0
      simp [toHexCodesAux]
    · have hlt : n / 16 < 16 ^ fuel := by
        have hpow : (16:Nat) ^ (fuel + 1) = 16 ^ fuel * 16 := by ring
        rw [hpow] at hn
        omega
      have hstep : toHexCodesAux (fuel + 1) n =
          toHexCodesAux fuel (n / 16) ++ [hexDigitCode (n % 16)] := by
        simp [toHexCodesAux, h0]
      rw [hstep, List.map_append, List.foldl_append, ih (n / 16) a hlt]
      simp only [List.map_cons, List.map_nil, List.foldl_cons,
        List.foldl_nil, parseHexStep,
        hexCodeVal_upper_hexDigitCode (n % 16) (by omega),
        List.length_append, List.length_cons, List.length_nil,
        Nat.zero_add]
      congr 1
      rw [pow_succ, ← mul_assoc]
      generalize a * 16 ^ (toHexCodesAux fuel (n / 16)).length = X
      omega

lemma toHexCodesAux_ne_nil (n : Nat) (h0 : n ≠ 0) :
    toHexCodesAux 64 n ≠ [] := by
  rw [show (64:Nat) = 63 + 1 from rfl]
  simp [toHexCodesAux, h0]

/-- C8: for every valid index `h`, parsing the printed lowercase
hexadecimal string gives back `h`, and parsing the uppercased string does
too (case-insensitive parsing). -/
theorem string_round_trip (h : Nat) (hv : h3IsValid h = true) :
    stringToH3 (h3ToString h) = h ∧
    stringToH3 ((h3ToString h).map upperHexCode) = h := by
  have h64 : h < 2 ^ 64 := (h3IsValid_facts h hv).1
  by_cases h0 : h = 0
  · subst h0
    exact ⟨by decide, by decide⟩
  · have hlt : h < 16 ^ 64 := by
      have hle : (2:Nat) ^ 64 ≤ 16 ^ 64 := Nat.pow_le_pow_left (by omega) 64
      omega
    have hne := toHexCodesAux_ne_nil h h0
    have ht : h3ToString h = toHexCodesAux 64 h := by
      simp [h3ToString, h0]
    constructor
    · rw [ht, stringToH3,
        if_neg (by simpa [List.isEmpty_iff] using hne),
        foldl_parse_toHex 64 h 0 hlt]
      simp
    · rw [ht, stringToH3,
        if_neg (by simp [List.isEmpty_iff, hne]),
        foldl_parse_toHex_upper 64 h 0 hlt]
      simp

theorem string_round_trip_witness :
    stringToH3 (h3ToString pentagon2) = pentagon2 :=
  (string_round_trip pentagon2 (by decide)).1

/-- C9: the two-slot output of `getH3IndexesFromUnidirectionalEdge` holds
the origin first and the destination second, agreeing with the two
single-index accessors. -/
theorem edge_indexes_pair (nbr : Nat → Nat → Nat) (e : Nat)
    (hv : h3UnidirectionalEdgeIsValid e = true) :
    (getH3IndexesFromUnidirectionalEdge nbr e)[0]? =
      some (getOriginH3IndexFromUnidirectionalEdge e) ∧
    (getH3IndexesFromUnidirectionalEdge nbr e)[1]? =
      some (getDestinationH3IndexFromUnidirectionalEdge nbr e) :=
  ⟨rfl, rfl⟩

theorem edge_indexes_pair_witness :
    (getH3IndexesFromUnidirectionalEdge nbrNone (mkUniEdge cellA 2))[0]? =
      some (getOriginH3IndexFromUnidirectionalEdge (mkUniEdge cellA 2)) ∧
    (getH3IndexesFromUnidirectionalEdge nbrNone (mkUniEdge cellA 2))[1]? =
      some (getDestinationH3IndexFromUnidirectionalEdge nbrNone
        (mkUniEdge cellA 2)) :=
  edge_indexes_pair nbrNone (mkUniEdge cellA 2) (by decide)

lemma edgesFromHexagon_eq (h : Nat) :
    getH3UnidirectionalEdgesFromHexagon h =
      [(if h3IsPentagon h then 0 else mkUniEdge h 1), mkUniEdge h 2,
       mkUniEdge h 3, mkUniEdge h 4, mkUniEdge h 5, mkUniEdge h 6] := by
  simp [getH3UnidirectionalEdgesFromHexagon, candidateDirs]

/-- C10: every nonzero edge produced by
`getH3UnidirectionalEdgesFromHexagon h` for a valid cell `h` has a
destination different from `h`, given that a neighbor step never returns
its argument. -/
theorem edge_destination_ne_origin (nbr : Nat → Nat → Nat) (h e : Nat)
    (hv : h3IsValid h = true)
    (hirr : ∀ d, 1 ≤ d → d ≤ 6 → nbr h d ≠ h)
    (he : e ∈ getH3UnidirectionalEdgesFromHexagon h) (hne : e ≠ 0) :
    getDestinationH3IndexFromUnidirectionalEdge nbr e ≠ h := by
  have hdest : ∀ d, 1 ≤ d → d ≤ 6 →
      getDestinationH3IndexFromUnidirectionalEdge nbr (mkUniEdge h d) ≠ h := by
    intro d hd1 hd6
    rw [getDestinationH3IndexFromUnidirectionalEdge,
      origin_mkUniEdge h d hv, reserved_mkUniEdge]
    have hd8 : d % 8 = d := by omega
    rw [hd8]
    exact hirr d hd1 hd6
  rw [edgesFromHexagon_eq] at he
  simp only [List.mem_cons, List.not_mem_nil, or_false] at he
  rcases he with he | rfl | rfl | rfl | rfl | rfl
  · cases hp : h3IsPentagon h with
    | true =>
      rw [hp] at he
      simp at he
      exact absurd he hne
    | false =>
      rw [hp] at he
      simp at he
      subst he
      exact hdest 1 (by omega) (by omega)
  all_goals exact hdest _ (by omega) (by omega)

theorem edge_destination_ne_origin_witness :
    getDestinationH3IndexFromUnidirectionalEdge nbrNone
      (mkUniEdge cellA 2) ≠ cellA :=
  edge_destination_ne_origin nbrNone cellA (mkUniEdge cellA 2) (by decide)
    (fun d _ _ => by simp [nbrNone, cellA]) (by decide) (by decide)
